import Mathlib

/-!
# Tonomat marketplace bot: shallow embedding

A shallow embedding of the marketplace core of `tonomat_bot.py`: the SQLite
tables (`items`, `profiles`, `orders`) become lists of records held in a
`MarketState`, and each chat handler (`start`, `shop`, `sell`, `buy`,
`profile`) becomes a state-passing function mirroring, statement by
statement, the SQL the handler executes.  `AUTOINCREMENT` ids are modelled
by `nextItemId` / `nextOrderId` counters starting at 1.  SQLite `INTEGER`
columns are modelled as `Int`; the `REAL` price column holds the result of
Python's `float()`, modelled as `PyFloat` — a finite rational or one of
`inf`, `-inf`, `nan` (the binary rounding of doubles is not modelled; no
claim inspects a price arithmetically).
-/

/-- Value of a decimal digit string (most significant first). -/
def digitsToNat (l : List Char) : Nat :=
  l.foldl (fun a c => 10 * a + (c.toNat - 48)) 0

/-- Every character is a decimal digit. -/
def allDigits (l : List Char) : Bool :=
  l.all (fun c => c.isDigit)

/-- ASCII whitespace stripped by Python's `int()`/`float()` string
conversion (CPython also strips some non-ASCII Unicode spaces, which are
not modelled). -/
def isPyWS (c : Char) : Bool :=
  c == ' ' || c == '\t' || c == '\n' || c == '\x0d' || c == '\x0b' || c == '\x0c'

/-- Strip leading and trailing whitespace. -/
def stripPyWS (l : List Char) : List Char :=
  ((l.dropWhile isPyWS).reverse.dropWhile isPyWS).reverse

/-- Walks the characters checking that every underscore sits directly
between two decimal digits (`prev` is the previous character). -/
def underscoresOkAux : Char → List Char → Bool
  | _, [] => true
  | prev, '_' :: rest =>
      match rest with
      | [] => false
      | nxt :: _ => prev.isDigit && nxt.isDigit && underscoresOkAux '_' rest
  | _, c :: rest => underscoresOkAux c rest

/-- CPython's digit-grouping rule for numeric string conversion: an
underscore is legal only directly between two digits. -/
def underscoresOk (l : List Char) : Bool :=
  match l with
  | [] => true
  | '_' :: _ => false
  | c :: rest => underscoresOkAux c rest

/-- A CPython `float` value: a finite rational (every accepted decimal
literal denotes a rational; the binary rounding of the stored double is
not modelled, and no claim inspects a price arithmetically), or one of the
non-finite values `float("inf")`, `float("-inf")`, `float("nan")`. -/
inductive PyFloat where
  | finite (q : ℚ)
  | inf
  | negInf
  | nan
deriving Repr, DecidableEq

/-- Negation of a parsed float, for a leading `'-'` sign (the sign of a NaN
is not observable in this model). -/
def PyFloat.negOf : PyFloat → PyFloat
  | .finite q => .finite (-q)
  | .inf => .negInf
  | .negInf => .inf
  | .nan => .nan

/-- Value of `ip.fp` as a rational. -/
def decimalVal (ip fp : List Char) : ℚ :=
  (digitsToNat ip : ℚ) + (digitsToNat fp : ℚ) / ((10 : ℚ) ^ fp.length)

/-- Decimal mantissa: digits with an optional single dot, at least one
digit present overall. -/
def mantissaVal? (l : List Char) : Option ℚ :=
  match l.splitOn '.' with
  | [ip] =>
      if ip.isEmpty || !allDigits ip then none
      else some (digitsToNat ip : ℚ)
  | [ip, fp] =>
      if ip.isEmpty && fp.isEmpty then none
      else if allDigits ip && allDigits fp then some (decimalVal ip fp) else none
  | _ => none

/-- Decimal exponent after `e`: an optional sign and at least one digit. -/
def expVal? (l : List Char) : Option Int :=
  match l with
  | [] => none
  | '-' :: rest =>
      if rest.isEmpty || !allDigits rest then none
      else some (-(digitsToNat rest : Int))
  | '+' :: rest =>
      if rest.isEmpty || !allDigits rest then none
      else some (digitsToNat rest : Int)
  | _ => if allDigits l then some (digitsToNat l : Int) else none

/-- Unsigned part of Python's `float()` grammar: the case-insensitive
spellings `inf`/`infinity`/`nan`, or a decimal mantissa with optional
fraction, an optional `e`/`E` exponent, and underscores permitted between
digits. -/
def pyFloatCore (l : List Char) : Option PyFloat :=
  let low := l.map Char.toLower
  if low == "inf".toList || low == "infinity".toList then some .inf
  else if low == "nan".toList then some .nan
  else if !underscoresOk low then none
  else
    let ds := low.filter (fun c => !(c == '_'))
    match ds.splitOn 'e' with
    | [m] => (mantissaVal? m).map PyFloat.finite
    | [m, ex] =>
        match mantissaVal? m, expVal? ex with
        | some mv, some e => some (.finite (mv * (10 : ℚ) ^ e))
        | _, _ => none
    | _ => none

/-- Modelled from Python `float(s)`: surrounding whitespace is stripped, an
optional sign precedes either a non-finite spelling (`inf`, `infinity`,
`nan`, case-insensitive) or a decimal literal with optional fraction,
optional `e`/`E` exponent, and underscores between digits; anything else
raises `ValueError`, modelled as `none`.  Not modelled: non-ASCII digits
and non-ASCII whitespace, which CPython also accepts. -/
def pyFloat? (s : String) : Option PyFloat :=
  match stripPyWS s.toList with
  | '-' :: rest => (pyFloatCore rest).map PyFloat.negOf
  | '+' :: rest => pyFloatCore rest
  | l => pyFloatCore l

/-- Digits of a Python `int()` literal, underscores permitted between
digits. -/
def pyIntCore (l : List Char) : Option Nat :=
  if l.isEmpty || !underscoresOk l then none
  else
    let ds := l.filter (fun c => !(c == '_'))
    if ds.isEmpty || !allDigits ds then none else some (digitsToNat ds)

/-- Modelled from Python `int(s)` in base 10: surrounding whitespace is
stripped, then an optional sign and one or more decimal digits with
underscores permitted between digits; anything else raises `ValueError`,
modelled as `none`.  Not modelled: non-ASCII digits and non-ASCII
whitespace, which CPython also accepts. -/
def pyInt? (s : String) : Option Int :=
  match stripPyWS s.toList with
  | '-' :: rest => (pyIntCore rest).map (fun n => -(n : Int))
  | '+' :: rest => (pyIntCore rest).map (fun n => (n : Int))
  | l => (pyIntCore l).map (fun n => (n : Int))

/-- A row of the `items` table:
`(id INTEGER PRIMARY KEY AUTOINCREMENT, desc TEXT, price REAL, seller_id INTEGER, stock INTEGER DEFAULT 1)`. -/
structure Item where
  id : Nat
  desc : String
  price : PyFloat
  sellerId : Nat
  stock : Int
deriving Repr, DecidableEq

/-- A row of the `profiles` table:
`(user_id INTEGER PRIMARY KEY, items_sold INTEGER DEFAULT 0, items_bought INTEGER DEFAULT 0)`. -/
structure Profile where
  userId : Nat
  itemsSold : Int
  itemsBought : Int
deriving Repr, DecidableEq

/-- A row of the `orders` table:
`(order_id INTEGER PRIMARY KEY AUTOINCREMENT, user_id INTEGER, item_id INTEGER, status TEXT, drop_location TEXT)`.
`itemId` is an `Int` because the handler inserts the raw integer parsed from
the chat argument, which need not name an existing item row. -/
structure Order where
  orderId : Nat
  userId : Nat
  itemId : Int
  status : String
  dropLocation : String
deriving Repr, DecidableEq

/-- The database: the three tables in row (insertion) order, plus the next
`AUTOINCREMENT` value of each id column. -/
structure MarketState where
  items : List Item
  profiles : List Profile
  orders : List Order
  nextItemId : Nat
  nextOrderId : Nat
deriving Repr, DecidableEq

/-- A freshly created database: all tables empty, `AUTOINCREMENT` starts at 1. -/
def initState : MarketState :=
  { items := [], profiles := [], orders := [], nextItemId := 1, nextOrderId := 1 }

/-- `INSERT OR IGNORE INTO profiles (user_id) VALUES (?)`: a zero-initialised
row is appended unless one with this primary key exists. -/
def insertOrIgnoreProfile (uid : Nat) (s : MarketState) : MarketState :=
  if s.profiles.any (fun p => p.userId == uid) then s
  else { s with profiles := s.profiles ++ [{ userId := uid, itemsSold := 0, itemsBought := 0 }] }

/-- `INSERT INTO items (desc, price, seller_id, stock) VALUES (?, ?, ?, 1)`:
the new row gets the next `AUTOINCREMENT` id and stock 1. -/
def insertItem (desc : String) (price : PyFloat) (sellerId : Nat) (s : MarketState) : MarketState :=
  { s with
    items := s.items ++ [{ id := s.nextItemId, desc := desc, price := price,
                           sellerId := sellerId, stock := 1 }]
    nextItemId := s.nextItemId + 1 }

/-- `UPDATE profiles SET items_sold = items_sold + 1 WHERE user_id = ?`:
increments the matching rows; silently a no-op when no row matches. -/
def updateItemsSold (uid : Nat) (s : MarketState) : MarketState :=
  { s with profiles := s.profiles.map (fun p =>
      if p.userId == uid then { p with itemsSold := p.itemsSold + 1 } else p) }

/-- `UPDATE profiles SET items_bought = items_bought + 1 WHERE user_id = ?`:
increments the matching rows; silently a no-op when no row matches. -/
def updateItemsBought (uid : Nat) (s : MarketState) : MarketState :=
  { s with profiles := s.profiles.map (fun p =>
      if p.userId == uid then { p with itemsBought := p.itemsBought + 1 } else p) }

/-- `UPDATE items SET stock = stock - 1 WHERE id = ?`: an unconditional
decrement of the matching rows (no stock check at this level). -/
def decrementStock (iid : Int) (s : MarketState) : MarketState :=
  { s with items := s.items.map (fun it =>
      if (it.id : Int) == iid then { it with stock := it.stock - 1 } else it) }

/-- `INSERT INTO orders (user_id, item_id, status, drop_location) VALUES (?, ?, ?, ?)`:
the new row gets the next `AUTOINCREMENT` order id. -/
def insertOrder (uid : Nat) (iid : Int) (status loc : String) (s : MarketState) : MarketState :=
  { s with
    orders := s.orders ++ [{ orderId := s.nextOrderId, userId := uid, itemId := iid,
                             status := status, dropLocation := loc }]
    nextOrderId := s.nextOrderId + 1 }

/-- The `/start` handler's database effect: ensure the caller's profile row
exists (`INSERT OR IGNORE`). -/
def start (uid : Nat) (s : MarketState) : MarketState :=
  insertOrIgnoreProfile uid s

/-- The `/shop` handler (browse catalog):
`SELECT id, desc, price, stock FROM items WHERE stock > 0` — a table scan in
rowid order returning the rows with positive stock; the database is not
modified. -/
def shop (s : MarketState) : MarketState × List Item :=
  (s, s.items.filter (fun it => 0 < it.stock))

/-- Outcome of the `/sell` handler. -/
inductive SellResult where
  | usage
  | badPrice
  | listed (itemId : Nat)
deriving Repr, DecidableEq

/-- The `/sell` handler: with fewer than two arguments it replies with a
usage message; otherwise the description is the space-join of all but the
last argument and the last argument is parsed with `float` (a `ValueError`
yields the bad-price reply).  On success it inserts the item (committing),
reads `cursor.lastrowid`, then increments the seller's `items_sold`
(committing again).  No profile row is ensured first, and no check is made
that the parsed price is positive or finite, nor any check on the
description (Telegram's `context.args` are whitespace-split tokens and so
never empty strings; the model leaves `args` unrestricted since the handler
itself validates nothing about them beyond the count). -/
def sell (uid : Nat) (args : List String) (s : MarketState) : MarketState × SellResult :=
  if args.length < 2 then (s, .usage)
  else
    match pyFloat? (args.getLastD "") with
    | none => (s, .badPrice)
    | some price =>
        let desc := String.intercalate " " args.dropLast
        let s1 := insertItem desc price uid s
        let s2 := updateItemsSold uid s1
        (s2, .listed s.nextItemId)

/-- The committed database states produced by a `/sell` call, in order: the
handler calls `conn.commit()` once after the item `INSERT` and again after
the `items_sold` `UPDATE`, so the two mutations are two separate
transactions.  If storage becomes unavailable between the two commits, the
first element of this list is the state that persists. -/
def sellCommittedStates (uid : Nat) (args : List String) (s : MarketState) : List MarketState :=
  if args.length < 2 then []
  else
    match pyFloat? (args.getLastD "") with
    | none => []
    | some price =>
        let desc := String.intercalate " " args.dropLast
        let s1 := insertItem desc price uid s
        [s1, updateItemsSold uid s1]

/-- Outcome of the `/buy` handler. -/
inductive BuyResult where
  | usage
  | badId
  | notFoundOrOutOfStock
  | ordered (orderId : Nat)
deriving Repr, DecidableEq

/-- The `/buy` handler: exactly one argument, parsed with `int` (a
`ValueError` yields the bad-id reply).  It then runs
`SELECT desc, price, stock FROM items WHERE id = ? AND stock > 0`; if no row
matches — whether the id names no item at all or the item's stock is 0 — it
replies with the single merged "Item not found or out of stock" message and
returns without touching the database.  Otherwise it inserts an order with
status `"pending_payment"` and the hardcoded dummy drop location
`"40.7128,-74.0060"`, decrements the item's stock, increments the buyer's
`items_bought` (a silent no-op if the buyer has no profile row), and commits
once; the reported order id is `cursor.lastrowid`, i.e. the rowid of the
order `INSERT`. -/
def buy (uid : Nat) (args : List String) (s : MarketState) : MarketState × BuyResult :=
  if args.length ≠ 1 then (s, .usage)
  else
    match pyInt? (args.headD "") with
    | none => (s, .badId)
    | some iid =>
        match s.items.find? (fun it => ((it.id : Int) == iid) && decide (0 < it.stock)) with
        | none => (s, .notFoundOrOutOfStock)
        | some _ =>
            let s1 := insertOrder uid iid "pending_payment" "40.7128,-74.0060" s
            let s2 := decrementStock iid s1
            let s3 := updateItemsBought uid s2
            (s3, .ordered s.nextOrderId)

/-- The `/profile` handler (get profile stats): first
`INSERT OR IGNORE INTO profiles (user_id) VALUES (?)`, then
`SELECT items_sold, items_bought FROM profiles WHERE user_id = ?`. -/
def profile (uid : Nat) (s : MarketState) : MarketState × Option (Int × Int) :=
  let s1 := insertOrIgnoreProfile uid s
  (s1, (s1.profiles.find? (fun p => p.userId == uid)).map (fun p => (p.itemsSold, p.itemsBought)))

/-- One marketplace operation, as issued by a chat user. -/
inductive Op where
  | start (uid : Nat)
  | shop
  | sell (uid : Nat) (args : List String)
  | buy (uid : Nat) (args : List String)
  | profile (uid : Nat)
deriving Repr, DecidableEq

/-- The database effect of one operation. -/
def applyOp (s : MarketState) : Op → MarketState
  | .start uid => start uid s
  | .shop => (shop s).1
  | .sell uid args => (sell uid args s).1
  | .buy uid args => (buy uid args s).1
  | .profile uid => (profile uid s).1

/-- Run a sequence of operations from a given state. -/
def runOps (ops : List Op) (s : MarketState) : MarketState :=
  ops.foldl applyOp s

/-- Structural well-formedness of the `items` table maintained by the code:
every id is below the next `AUTOINCREMENT` value, ids are strictly
increasing in row order (so unique), and no stock is negative. -/
def StateInv (s : MarketState) : Prop :=
  (∀ it ∈ s.items, it.id < s.nextItemId) ∧
  (s.items.map Item.id).Sorted (· < ·) ∧
  (∀ it ∈ s.items, 0 ≤ it.stock)

/-! ## Helper lemmas -/

/-- `find?` returns the element when it is the unique satisfier of the predicate. -/
theorem find?_eq_some_of_unique {α : Type} {p : α → Bool} {l : List α} {a : α}
    (ha : a ∈ l) (hpa : p a = true) (huniq : ∀ x ∈ l, p x = true → x = a) :
    l.find? p = some a := by
  induction l with
  | nil => cases ha
  | cons b t ih =>
      cases hb : p b with
      | true =>
          have hba : b = a := huniq b (List.mem_cons_self b t) hb
          rw [List.find?_cons_of_pos t hb, hba]
      | false =>
          have ha' : a ∈ t := by
            rcases List.mem_cons.mp ha with h | h
            · subst h; rw [hpa] at hb; cases hb
            · exact h
          rw [List.find?_cons_of_neg t (by simp [hb])]
          exact ih ha' (fun x hx hpx => huniq x (List.mem_cons_of_mem b hx) hpx)

/-- Decoding the predicate the purchase `SELECT` uses. -/
theorem buyPred_eq_true {it : Item} {iid : Int} :
    ((((it.id : Int) == iid) && decide (0 < it.stock)) = true) ↔
      ((it.id : Int) = iid ∧ 0 < it.stock) := by
  simp

/-- `insertOrIgnoreProfile` only touches the `profiles` table. -/
theorem insertOrIgnoreProfile_items (uid : Nat) (s : MarketState) :
    (insertOrIgnoreProfile uid s).items = s.items := by
  unfold insertOrIgnoreProfile; split <;> rfl

theorem insertOrIgnoreProfile_orders (uid : Nat) (s : MarketState) :
    (insertOrIgnoreProfile uid s).orders = s.orders := by
  unfold insertOrIgnoreProfile; split <;> rfl

theorem insertOrIgnoreProfile_nextItemId (uid : Nat) (s : MarketState) :
    (insertOrIgnoreProfile uid s).nextItemId = s.nextItemId := by
  unfold insertOrIgnoreProfile; split <;> rfl

/-- The state parts a successful `/sell` produces. -/
theorem sell_eq_of_parse (uid : Nat) (args : List String) (s : MarketState) (p : PyFloat)
    (hlen : ¬ args.length < 2) (hparse : pyFloat? (args.getLastD "") = some p) :
    sell uid args s =
      (updateItemsSold uid
        (insertItem (String.intercalate " " args.dropLast) p uid s), .listed s.nextItemId) := by
  unfold sell
  rw [if_neg hlen, hparse]

/-- The state parts a successful `/buy` produces. -/
theorem buy_eq_of_find (uid : Nat) (idStr : String) (s : MarketState) (iid : Int) (it : Item)
    (hparse : pyInt? idStr = some iid)
    (hfind : s.items.find? (fun x => ((x.id : Int) == iid) && decide (0 < x.stock)) = some it) :
    buy uid [idStr] s =
      (updateItemsBought uid
        (decrementStock iid
          (insertOrder uid iid "pending_payment" "40.7128,-74.0060" s)), .ordered s.nextOrderId) := by
  unfold buy
  rw [if_neg (by simp)]
  simp only [List.headD, hparse, hfind]

/-- The two profile-counter updates and the stock decrement keep row keys. -/
theorem updateItemsSold_items (uid : Nat) (s : MarketState) :
    (updateItemsSold uid s).items = s.items := rfl

theorem updateItemsSold_orders (uid : Nat) (s : MarketState) :
    (updateItemsSold uid s).orders = s.orders := rfl

theorem updateItemsBought_orders (uid : Nat) (s : MarketState) :
    (updateItemsBought uid s).orders = s.orders := rfl

theorem decrementStock_orders (iid : Int) (s : MarketState) :
    (decrementStock iid s).orders = s.orders := rfl

/-- The stock decrement keeps every item's id. -/
theorem decrementStock_id_map (iid : Int) (s : MarketState) :
    (decrementStock iid s).items.map Item.id = s.items.map Item.id := by
  unfold decrementStock
  simp only [List.map_map]
  congr 1
  funext x
  by_cases h : ((x.id : Int) == iid) = true <;> simp [Function.comp, h]

/-- The invariant holds in the fresh database. -/
theorem stateInv_init : StateInv initState := by
  refine ⟨?_, ?_, ?_⟩ <;> simp [initState, StateInv]

/-- Every operation preserves the structural invariant. -/
theorem stateInv_applyOp (s : MarketState) (op : Op) (h : StateInv s) :
    StateInv (applyOp s op) := by
  obtain ⟨hbound, hsorted, hstock⟩ := h
  cases op with
  | start uid =>
      refine ⟨?_, ?_, ?_⟩ <;>
        simp only [applyOp, start, insertOrIgnoreProfile_items,
          insertOrIgnoreProfile_nextItemId] <;> assumption
  | shop => exact ⟨hbound, hsorted, hstock⟩
  | profile uid =>
      refine ⟨?_, ?_, ?_⟩ <;>
        simp only [applyOp, profile, insertOrIgnoreProfile_items,
          insertOrIgnoreProfile_nextItemId] <;> assumption
  | sell uid args =>
      simp only [applyOp, sell]
      split
      · exact ⟨hbound, hsorted, hstock⟩
      · split
        · exact ⟨hbound, hsorted, hstock⟩
        · refine ⟨?_, ?_, ?_⟩ <;>
            simp only [updateItemsSold_items, updateItemsSold, insertItem]
          · intro it hit
            rcases List.mem_append.mp hit with hmem | hmem
            · exact Nat.lt_succ_of_lt (hbound it hmem)
            · simp only [List.mem_singleton] at hmem
              subst hmem
              exact Nat.lt_succ_self _
          · rw [List.map_append]
            show List.Pairwise (· < ·) _
            rw [List.pairwise_append]
            refine ⟨hsorted, by simp, ?_⟩
            intro a ha b hb
            simp only [List.mem_map] at ha
            obtain ⟨it, hit, rfl⟩ := ha
            simp only [List.map_cons, List.map_nil, List.mem_singleton] at hb
            subst hb
            exact hbound it hit
          · intro it hit
            rcases List.mem_append.mp hit with hmem | hmem
            · exact hstock it hmem
            · simp only [List.mem_singleton] at hmem
              subst hmem
              exact zero_le_one
  | buy uid args =>
      simp only [applyOp, buy]
      split
      · exact ⟨hbound, hsorted, hstock⟩
      · split
        · exact ⟨hbound, hsorted, hstock⟩
        · rename_i iid _
          split
          · exact ⟨hbound, hsorted, hstock⟩
          · rename_i it hfind
            have hit : it ∈ s.items := List.mem_of_find?_eq_some hfind
            have hpred0 := List.find?_some hfind
            simp only [Bool.and_eq_true, beq_iff_eq, decide_eq_true_eq] at hpred0
            have hpred := hpred0
            have hnd : (s.items.map Item.id).Nodup := hsorted.nodup
            refine ⟨?_, ?_, ?_⟩ <;>
              simp only [updateItemsBought, decrementStock, insertOrder]
            · intro x hx
              simp only [List.mem_map] at hx
              obtain ⟨y, hy, rfl⟩ := hx
              by_cases hcase : (((y.id : Int) == iid) = true)
              · rw [if_pos hcase]; exact hbound y hy
              · rw [if_neg hcase]; exact hbound y hy
            · have hids : (s.items.map (fun x =>
                  if (x.id : Int) == iid then { x with stock := x.stock - 1 } else x)).map Item.id
                    = s.items.map Item.id := by
                simp only [List.map_map]
                congr 1
                funext x
                by_cases hcase : (((x.id : Int) == iid) = true) <;> simp [Function.comp, hcase]
              rw [hids]
              exact hsorted
            · intro x hx
              simp only [List.mem_map] at hx
              obtain ⟨y, hy, rfl⟩ := hx
              by_cases hcase : (((y.id : Int) == iid) = true)
              · rw [if_pos hcase]
                have hyid : (y.id : Int) = iid := by simpa using hcase
                have hyit : y = it := by
                  apply List.inj_on_of_nodup_map hnd hy hit
                  have := hpred.1
                  omega
                subst hyit
                have h2 := hpred.2
                show 0 ≤ y.stock - 1
                omega
              · rw [if_neg hcase]
                exact hstock y hy

/-- Running any sequence of operations preserves the invariant. -/
theorem stateInv_runOps (ops : List Op) (s : MarketState) (h : StateInv s) :
    StateInv (runOps ops s) := by
  induction ops generalizing s with
  | nil => exact h
  | cons op t ih => exact ih (applyOp s op) (stateInv_applyOp s op h)

/-- `find?` by user id commutes with a per-row update that keeps user ids. -/
theorem find?_profiles_map (f : Profile → Profile) (hf : ∀ q, (f q).userId = q.userId)
    (u : Nat) (l : List Profile) :
    (l.map f).find? (fun q => q.userId == u) = (l.find? (fun q => q.userId == u)).map f := by
  have hcomp : ((fun q : Profile => q.userId == u) ∘ f) = (fun q : Profile => q.userId == u) := by
    funext q
    simp [Function.comp, hf]
  rw [List.find?_map, hcomp]

/-- The counter updates preserve user ids. -/
theorem updateBought_keeps_userId (b : Nat) (q : Profile) :
    ((fun q : Profile => if q.userId == b then { q with itemsBought := q.itemsBought + 1 } else q) q).userId
      = q.userId := by
  by_cases hc : ((q.userId == b) = true) <;> simp [hc]

theorem updateSold_keeps_userId (b : Nat) (q : Profile) :
    ((fun q : Profile => if q.userId == b then { q with itemsSold := q.itemsSold + 1 } else q) q).userId
      = q.userId := by
  by_cases hc : ((q.userId == b) = true) <;> simp [hc]

/-- When the user's profile row exists, `/profile` reports its two counters
and leaves the state unchanged (the `INSERT OR IGNORE` is a no-op). -/
theorem profile_stats_of_find? (u : Nat) (s : MarketState) (pr : Profile)
    (h : s.profiles.find? (fun q => q.userId == u) = some pr) :
    profile u s = (s, some (pr.itemsSold, pr.itemsBought)) := by
  have hmem := List.mem_of_find?_eq_some h
  have hp := List.find?_some h
  simp only [profile, insertOrIgnoreProfile]
  rw [if_pos (List.any_eq_true.mpr ⟨pr, hmem, hp⟩)]
  rw [h]
  rfl

/-! ## Claims -/

/-- C1: for every item and after every sequence of marketplace operations
(`start`/ensure-profile, `shop`/browse, `sell`/list, `buy`/purchase,
`profile`/stats) run from a fresh database, the item's remaining stock is
at least zero: the purchase handler only decrements a row its `SELECT`
found with `stock > 0`. -/
theorem stock_never_negative (ops : List Op) :
    ∀ it ∈ (runOps ops initState).items, 0 ≤ it.stock :=
  (stateInv_runOps ops initState stateInv_init).2.2

/-- Witness for C1: after listing an item and purchasing it (stock reaches
exactly 0), the sold-out row still has non-negative stock. -/
theorem stock_never_negative_witness :
    0 ≤ ({ id := 1, desc := "Widget", price := PyFloat.finite 2, sellerId := 1, stock := 0 } : Item).stock :=
  stock_never_negative [Op.sell 1 ["Widget", "2"], Op.buy 2 ["1"]]
    { id := 1, desc := "Widget", price := PyFloat.finite 2, sellerId := 1, stock := 0 } (by decide)

/-- C2 counterexample: a buyer who has never interacted with the system has
no profile row, so the `UPDATE profiles SET items_bought = items_bought + 1`
inside `/buy` matches no row and the increment is silently lost: buyer 2's
first-ever action is a successful purchase of item 1, yet the subsequent
profile view reports `items_bought = 0`, not 1. -/
theorem buy_new_buyer_counter_lost :
    (buy 2 ["1"] (sell 1 ["Widget", "1.5"] initState).1).2 = BuyResult.ordered 1 ∧
    (profile 2 (buy 2 ["1"] (sell 1 ["Widget", "1.5"] initState).1).1).2 = some (0, 0) := by
  have hq : pyFloat? (["Widget", "1.5"].getLastD "")
      = some (PyFloat.finite (decimalVal ['1'] ['5'])) := rfl
  have h := sell_eq_of_parse 1 ["Widget", "1.5"] initState (PyFloat.finite (decimalVal ['1'] ['5']))
    (by decide) hq
  rw [h]
  constructor <;> rfl

/-- C2 (amended): for every buyer whose profile row already exists (as
`/start` or a prior `/profile` view creates it) and every item with
`stock > 0`, a successful purchase decrements that item's stock by exactly
1, appends exactly one order with status `"pending_payment"` referencing
that item and buyer, and increments the buyer's `items_bought` by 1, which
the subsequent profile view reports. -/
theorem buy_success_effects (b : Nat) (idStr : String) (iid : Int) (s : MarketState)
    (pr : Profile) (it : Item)
    (hnd : (s.items.map Item.id).Nodup)
    (hparse : pyInt? idStr = some iid)
    (hfind : s.items.find? (fun x => ((x.id : Int) == iid) && decide (0 < x.stock)) = some it)
    (hprof : s.profiles.find? (fun q => q.userId == b) = some pr) :
    (buy b [idStr] s).2 = BuyResult.ordered s.nextOrderId ∧
    (buy b [idStr] s).1.orders
      = s.orders ++ [{ orderId := s.nextOrderId, userId := b, itemId := iid,
                       status := "pending_payment", dropLocation := "40.7128,-74.0060" }] ∧
    (buy b [idStr] s).1.items.find? (fun x => (x.id : Int) == iid)
      = some { it with stock := it.stock - 1 } ∧
    (profile b (buy b [idStr] s).1).2 = some (pr.itemsSold, pr.itemsBought + 1) := by
  have hbeq := buy_eq_of_find b idStr s iid it hparse hfind
  have hit : it ∈ s.items := List.mem_of_find?_eq_some hfind
  have hp0 := List.find?_some hfind
  simp only [Bool.and_eq_true, beq_iff_eq, decide_eq_true_eq] at hp0
  refine ⟨?_, ?_, ?_, ?_⟩
  · rw [hbeq]
  · rw [hbeq]
    simp [updateItemsBought, decrementStock, insertOrder]
  · rw [hbeq]
    simp only [updateItemsBought, decrementStock, insertOrder]
    rw [List.find?_map]
    have hcomp : ((fun x : Item => (x.id : Int) == iid) ∘
        (fun x => if (x.id : Int) == iid then { x with stock := x.stock - 1 } else x))
          = (fun x : Item => (x.id : Int) == iid) := by
      funext x
      by_cases hc : (((x.id : Int) == iid) = true)
      · rw [Function.comp_apply, if_pos hc]
      · rw [Function.comp_apply, if_neg hc]
    rw [hcomp]
    have hfind2 : s.items.find? (fun x : Item => (x.id : Int) == iid) = some it := by
      apply find?_eq_some_of_unique hit (by simpa using hp0.1)
      intro x hx hpx
      simp only [beq_iff_eq] at hpx
      have h1 := hp0.1
      exact List.inj_on_of_nodup_map hnd hx hit (by omega)
    rw [hfind2]
    simp [hp0.1]
  · rw [hbeq]
    have hprof2 : (updateItemsBought b (decrementStock iid
        (insertOrder b iid "pending_payment" "40.7128,-74.0060" s))).profiles.find?
          (fun q => q.userId == b) = some { pr with itemsBought := pr.itemsBought + 1 } := by
      simp only [updateItemsBought, decrementStock, insertOrder]
      rw [find?_profiles_map _ (updateBought_keeps_userId b) b s.profiles]
      rw [hprof]
      have hpb : (pr.userId == b) = true :=
        @List.find?_some Profile (fun q => q.userId == b) pr s.profiles hprof
      simp [hpb]
      intro hne
      exact absurd (by simpa using hpb) hne
    rw [profile_stats_of_find? b _ _ hprof2]

/-- Witness for C2 (amended): buyer 2 first views a profile (creating the
row), then buys item 1; the profile view after the purchase reports
`items_bought = 1`. -/
theorem buy_success_effects_witness :
    (profile 2 (buy 2 ["1"] (start 2 (sell 1 ["Widget", "2"] initState).1)).1).2
      = some (0, 1) := by
  have h := buy_success_effects 2 "1" 1 (start 2 (sell 1 ["Widget", "2"] initState).1)
      { userId := 2, itemsSold := 0, itemsBought := 0 }
      { id := 1, desc := "Widget", price := PyFloat.finite 2, sellerId := 1, stock := 1 }
      (by decide) (by decide) (by decide) (by decide)
  simpa using h.2.2.2

/-- C3 counterexample: `/sell` never ensures the seller's profile row, so for
a seller who has never interacted with the system the
`UPDATE profiles SET items_sold = items_sold + 1` matches no row; the later
profile view creates a fresh zeroed row and reports `items_sold = 0`, not 1,
even though the listing itself succeeded. -/
theorem sell_new_seller_stats_cx :
    (sell 7 ["Widget", "1.5"] initState).2 = SellResult.listed 1 ∧
    (profile 7 (sell 7 ["Widget", "1.5"] initState).1).2 = some (0, 0) := by
  have hq : pyFloat? (["Widget", "1.5"].getLastD "")
      = some (PyFloat.finite (decimalVal ['1'] ['5'])) := rfl
  have h := sell_eq_of_parse 7 ["Widget", "1.5"] initState (PyFloat.finite (decimalVal ['1'] ['5']))
    (by decide) hq
  rw [h]
  constructor <;> rfl

/-- C3 (amended): for a seller whose profile row already exists (as `/start`
creates it), a valid `/sell` increments `items_sold` by exactly 1 and the
subsequent profile view reports the incremented value; in particular a new
seller who ran `/start` first sees `items_sold = 1` after one listing. -/
theorem sell_increments_items_sold (u : Nat) (args : List String) (s : MarketState)
    (pr : Profile) (p : PyFloat)
    (hlen : ¬ args.length < 2)
    (hparse : pyFloat? (args.getLastD "") = some p)
    (hprof : s.profiles.find? (fun q => q.userId == u) = some pr) :
    (sell u args s).2 = SellResult.listed s.nextItemId ∧
    (profile u (sell u args s).1).2 = some (pr.itemsSold + 1, pr.itemsBought) := by
  have hs := sell_eq_of_parse u args s p hlen hparse
  constructor
  · rw [hs]
  · rw [hs]
    have hprof2 : (updateItemsSold u
        (insertItem (String.intercalate " " args.dropLast) p u s)).profiles.find?
          (fun q => q.userId == u) = some { pr with itemsSold := pr.itemsSold + 1 } := by
      simp only [updateItemsSold, insertItem]
      rw [find?_profiles_map _ (updateSold_keeps_userId u) u s.profiles]
      rw [hprof]
      have hpb : (pr.userId == u) = true :=
        @List.find?_some Profile (fun q => q.userId == u) pr s.profiles hprof
      simp [hpb]
      intro hne
      exact absurd (by simpa using hpb) hne
    rw [profile_stats_of_find? u _ _ hprof2]

/-- Witness for C3 (amended): seller 7 runs `/start` (profile row created),
lists one item, and the profile view reports `items_sold = 1`. -/
theorem sell_increments_items_sold_witness :
    (profile 7 (sell 7 ["Widget", "2"] (start 7 initState)).1).2 = some (1, 0) := by
  have h := sell_increments_items_sold 7 ["Widget", "2"] (start 7 initState)
      { userId := 7, itemsSold := 0, itemsBought := 0 } (PyFloat.finite 2)
      (by decide) (by decide) (by decide)
  simpa using h.2

/-- C5 counterexample: `/sell` performs no positivity or finiteness check on
the parsed price — the non-positive price `-1` and the non-finite price
`inf` are both accepted, each creating an item (next id, stock 1) instead
of the listing failing with an invalid-input error. -/
theorem sell_nonpositive_price_accepted_cx :
    (sell 7 ["Widget", "-1"] initState).2 = SellResult.listed 1 ∧
    (sell 7 ["Widget", "-1"] initState).1.items
      = [{ id := 1, desc := "Widget", price := PyFloat.finite (-1), sellerId := 7, stock := 1 }] ∧
    ((-1 : ℚ) < 0) ∧
    (sell 8 ["Widget", "inf"] initState).2 = SellResult.listed 1 ∧
    (sell 8 ["Widget", "inf"] initState).1.items
      = [{ id := 1, desc := "Widget", price := PyFloat.inf, sellerId := 8, stock := 1 }] := by
  refine ⟨by decide, by decide, by norm_num, by decide, by decide⟩

/-- C5 (amended): item creation through `/sell` fails only when fewer than
two arguments are supplied (usage reply) or the price string does not parse
as a Python float (`ValueError` reply), in both cases leaving the state
unchanged; any parsed price — non-positive values and the non-finite
`inf`/`-inf`/`nan` included — is accepted unchecked, and the created item
gets the next id and initial stock 1.  The handler performs no description
validation either. -/
theorem sell_validation (u : Nat) (args : List String) (s : MarketState) :
    (args.length < 2 → sell u args s = (s, SellResult.usage)) ∧
    (2 ≤ args.length → pyFloat? (args.getLastD "") = none →
      sell u args s = (s, SellResult.badPrice)) ∧
    (∀ p : PyFloat, 2 ≤ args.length → pyFloat? (args.getLastD "") = some p →
      (sell u args s).2 = SellResult.listed s.nextItemId ∧
      (sell u args s).1.items = s.items ++
        [{ id := s.nextItemId, desc := String.intercalate " " args.dropLast,
           price := p, sellerId := u, stock := 1 }] ∧
      (sell u args s).1.nextItemId = s.nextItemId + 1) := by
  refine ⟨?_, ?_, ?_⟩
  · intro hlt
    unfold sell
    rw [if_pos hlt]
  · intro hge hnone
    unfold sell
    rw [if_neg (by omega)]
    simp only [hnone]
  · intro p hge hsome
    have hs := sell_eq_of_parse u args s p (by omega) hsome
    rw [hs]
    exact ⟨rfl, by simp [updateItemsSold, insertItem], rfl⟩

/-- Witness for C5 (amended): with the non-positive price string `"-1"` and
with the non-finite price string `"inf"` the listing succeeds and creates
the stock-1 item with id 1. -/
theorem sell_validation_witness :
    ((sell 7 ["Widget", "-1"] initState).2 = SellResult.listed 1 ∧
     (sell 7 ["Widget", "-1"] initState).1.items
       = [] ++ [{ id := 1, desc := "Widget", price := PyFloat.finite (-1),
                  sellerId := 7, stock := 1 }] ∧
     (sell 7 ["Widget", "-1"] initState).1.nextItemId = 1 + 1) ∧
    ((sell 8 ["Widget", "inf"] initState).2 = SellResult.listed 1 ∧
     (sell 8 ["Widget", "inf"] initState).1.items
       = [] ++ [{ id := 1, desc := "Widget", price := PyFloat.inf,
                  sellerId := 8, stock := 1 }] ∧
     (sell 8 ["Widget", "inf"] initState).1.nextItemId = 1 + 1) :=
  ⟨(sell_validation 7 ["Widget", "-1"] initState).2.2 (PyFloat.finite (-1))
      (by decide) (by decide),
   (sell_validation 8 ["Widget", "inf"] initState).2.2 PyFloat.inf
      (by decide) (by decide)⟩

/-- C6: when the requested id names no item at all, or names an item whose
stock is 0, `/buy` returns the single merged not-found-or-out-of-stock
outcome — one error for both causes — and the database (items, profiles,
orders) is completely unchanged: the handler returns before issuing any
write. -/
theorem buy_merged_error_no_mutation (u : Nat) (idStr : String) (iid : Int) (s : MarketState)
    (hparse : pyInt? idStr = some iid)
    (h : ∀ it ∈ s.items, (it.id : Int) = iid → it.stock ≤ 0) :
    buy u [idStr] s = (s, BuyResult.notFoundOrOutOfStock) := by
  have hnone : s.items.find? (fun x => ((x.id : Int) == iid) && decide (0 < x.stock)) = none := by
    rw [List.find?_eq_none]
    intro x hx
    simp only [Bool.and_eq_true, beq_iff_eq, decide_eq_true_eq, not_and]
    intro hid hstock
    have := h x hx hid
    omega
  unfold buy
  rw [if_neg (by simp)]
  simp only [List.headD, hparse, hnone]

/-- Witness for C6: with one listed item (id 1), buying the nonexistent id 5
and buying the sold-out item 1 (after its only unit was purchased) both
return the same merged error and leave the state untouched. -/
theorem buy_merged_error_no_mutation_witness :
    buy 9 ["5"] (sell 1 ["Widget", "2"] initState).1
      = ((sell 1 ["Widget", "2"] initState).1, BuyResult.notFoundOrOutOfStock) ∧
    buy 9 ["1"] (buy 2 ["1"] (sell 1 ["Widget", "2"] initState).1).1
      = ((buy 2 ["1"] (sell 1 ["Widget", "2"] initState).1).1,
          BuyResult.notFoundOrOutOfStock) :=
  ⟨buy_merged_error_no_mutation 9 "5" 5 _ (by decide) (by decide),
   buy_merged_error_no_mutation 9 "1" 1 _ (by decide) (by decide)⟩

/-- C7: the two `conn.commit()` calls in `/sell` make the listing two
separate transactions, not one: the first committed state already holds the
new item row while the seller's `items_sold` is still 0, so a storage
failure between the commits persists exactly that partial state (item
present, no counter increment) — there is no all-or-nothing rollback. -/
theorem sell_two_commits_partial_state :
    sellCommittedStates 7 ["Widget", "2"] (start 7 initState) =
      [{ items := [{ id := 1, desc := "Widget", price := PyFloat.finite 2, sellerId := 7, stock := 1 }],
         profiles := [{ userId := 7, itemsSold := 0, itemsBought := 0 }],
         orders := [], nextItemId := 2, nextOrderId := 1 },
       { items := [{ id := 1, desc := "Widget", price := PyFloat.finite 2, sellerId := 7, stock := 1 }],
         profiles := [{ userId := 7, itemsSold := 1, itemsBought := 0 }],
         orders := [], nextItemId := 2, nextOrderId := 1 }] := by
  decide

/-- C8: after any sequence of operations from a fresh database, the catalog
returned by `/shop` contains exactly the items with positive stock (an item
with stock 0 is never included), in ascending item-id order (the table scan
returns rows in rowid order, and ids are assigned increasingly). -/
theorem shop_active_catalog (ops : List Op) :
    (∀ x, x ∈ (shop (runOps ops initState)).2 ↔
        (x ∈ (runOps ops initState).items ∧ 0 < x.stock)) ∧
    ((shop (runOps ops initState)).2.map Item.id).Sorted (· < ·) := by
  constructor
  · intro x
    simp [shop, List.mem_filter]
  · have hs := (stateInv_runOps ops initState stateInv_init).2.1
    have hsub := List.Sublist.map Item.id
      (List.filter_sublist (l := (runOps ops initState).items)
        (p := fun it => decide (0 < it.stock)))
    exact List.Pairwise.sublist hsub hs

/-- Witness for C8: with item 1 in stock and item 2 sold out, the catalog
contains the in-stock item and not the sold-out one. -/
theorem shop_active_catalog_witness :
    ({ id := 2, desc := "Gadget", price := PyFloat.finite 3, sellerId := 1, stock := 1 } : Item)
      ∈ (shop (runOps [Op.sell 1 ["Widget", "2"], Op.sell 1 ["Gadget", "3"],
          Op.buy 2 ["1"]] initState)).2 ∧
    ¬ (({ id := 1, desc := "Widget", price := PyFloat.finite 2, sellerId := 1, stock := 0 } : Item)
      ∈ (shop (runOps [Op.sell 1 ["Widget", "2"], Op.sell 1 ["Gadget", "3"],
          Op.buy 2 ["1"]] initState)).2) :=
  ⟨((shop_active_catalog [Op.sell 1 ["Widget", "2"], Op.sell 1 ["Gadget", "3"],
      Op.buy 2 ["1"]]).1 _).mpr (by decide),
   fun hmem => by
    have h := ((shop_active_catalog [Op.sell 1 ["Widget", "2"], Op.sell 1 ["Gadget", "3"],
      Op.buy 2 ["1"]]).1 _).mp hmem
    exact absurd h.2 (by decide)⟩

/-- C9 counterexample: the `/buy` command accepts no location argument at
all — supplying one (`/buy 1 loc`) is rejected as a usage error — and a
successful purchase stores the hardcoded dummy coordinates
`"40.7128,-74.0060"`, not any caller-supplied string. -/
theorem buy_ignores_location_cx :
    (buy 2 ["1", "loc"] (sell 1 ["Widget", "2"] initState).1)
      = ((sell 1 ["Widget", "2"] initState).1, BuyResult.usage) ∧
    (buy 2 ["1"] (sell 1 ["Widget", "2"] initState).1).1.orders.map Order.dropLocation
      = ["40.7128,-74.0060"] ∧
    "40.7128,-74.0060" ≠ "loc" := by
  refine ⟨by decide, by decide, by decide⟩

/-- C9 (amended): every successful purchase appends exactly one order whose
`drop_location` is the constant placeholder `"40.7128,-74.0060"`; the caller
cannot supply a location. -/
theorem buy_location_constant (u : Nat) (args : List String) (s : MarketState) (oid : Nat)
    (h : (buy u args s).2 = BuyResult.ordered oid) :
    (buy u args s).1.orders.map Order.dropLocation
      = s.orders.map Order.dropLocation ++ ["40.7128,-74.0060"] := by
  by_cases hl : args.length ≠ 1
  · have hb : buy u args s = (s, .usage) := by unfold buy; rw [if_pos hl]
    rw [hb] at h; cases h
  · obtain ⟨a, rfl⟩ : ∃ a, args = [a] := by
      cases args with
      | nil => simp at hl
      | cons x t =>
          cases t with
          | nil => exact ⟨x, rfl⟩
          | cons y t2 => simp at hl
    cases hp : pyInt? a with
    | none =>
        have hb : buy u [a] s = (s, .badId) := by
          unfold buy; rw [if_neg (by simp)]; simp only [List.headD, hp]
        rw [hb] at h; cases h
    | some iid =>
        cases hf : s.items.find? (fun x => ((x.id : Int) == iid) && decide (0 < x.stock)) with
        | none =>
            have hb : buy u [a] s = (s, .notFoundOrOutOfStock) := by
              unfold buy; rw [if_neg (by simp)]; simp only [List.headD, hp, hf]
            rw [hb] at h; cases h
        | some it =>
            have hb := buy_eq_of_find u a s iid it hp hf
            rw [hb]
            simp [updateItemsBought, decrementStock, insertOrder]

/-- Witness for C9 (amended): the order created by buying item 1 carries the
placeholder drop location. -/
theorem buy_location_constant_witness :
    (buy 2 ["1"] (sell 1 ["Widget", "2"] initState).1).1.orders.map Order.dropLocation
      = ["40.7128,-74.0060"] := by
  have h := buy_location_constant 2 ["1"] (sell 1 ["Widget", "2"] initState).1 1 (by decide)
  have h0 : (sell 1 ["Widget", "2"] initState).1.orders.map Order.dropLocation = [] := by decide
  rw [h0] at h
  simpa using h

/-- Each single operation only ever appends to the `orders` table, and every
appended order carries status `"pending_payment"` and the placeholder drop
location; no operation updates or deletes an existing order row. -/
theorem applyOp_orders_extend (s : MarketState) (op : Op) :
    ∃ rest, (applyOp s op).orders = s.orders ++ rest ∧
      ∀ o ∈ rest, o.status = "pending_payment" ∧ o.dropLocation = "40.7128,-74.0060" := by
  cases op with
  | start uid =>
      exact ⟨[], by simp [applyOp, start, insertOrIgnoreProfile_orders], by simp⟩
  | shop => exact ⟨[], by simp [applyOp, shop], by simp⟩
  | profile uid =>
      exact ⟨[], by simp [applyOp, profile, insertOrIgnoreProfile_orders], by simp⟩
  | sell uid args =>
      simp only [applyOp, sell]
      split
      · exact ⟨[], by simp, by simp⟩
      · split
        · exact ⟨[], by simp, by simp⟩
        · exact ⟨[], by simp [updateItemsSold, insertItem], by simp⟩
  | buy uid args =>
      simp only [applyOp, buy]
      split
      · exact ⟨[], by simp, by simp⟩
      · split
        · exact ⟨[], by simp, by simp⟩
        · rename_i iid heq
          split
          · exact ⟨[], by simp, by simp⟩
          · exact ⟨[{ orderId := s.nextOrderId, userId := uid, itemId := iid,
                      status := "pending_payment", dropLocation := "40.7128,-74.0060" }],
                   by simp [updateItemsBought, decrementStock, insertOrder], by simp⟩

/-- Appending over a run: the orders table of any run extends the starting
orders table, and every appended order is a fresh pending-payment order. -/
theorem runOps_orders_extend (ops : List Op) (s : MarketState) :
    ∃ rest, (runOps ops s).orders = s.orders ++ rest ∧
      ∀ o ∈ rest, o.status = "pending_payment" ∧ o.dropLocation = "40.7128,-74.0060" := by
  induction ops generalizing s with
  | nil => exact ⟨[], by simp [runOps], by simp⟩
  | cons op t ih =>
      obtain ⟨r2, h2, hp2⟩ := ih (applyOp s op)
      obtain ⟨r1, h1, hp1⟩ := applyOp_orders_extend s op
      refine ⟨r1 ++ r2, ?_, ?_⟩
      · show (runOps t (applyOp s op)).orders = _
        rw [h2, h1, List.append_assoc]
      · intro o ho
        rcases List.mem_append.mp ho with hmem | hmem
        · exact hp1 o hmem
        · exact hp2 o hmem

/-- C10: no operation of the program ever modifies or deletes an order once
created: after any run from the fresh database every order on record has
status `"pending_payment"` and drop location `"40.7128,-74.0060"`, and any
further operations only append to the existing orders (no status-update
path exists in the code). -/
theorem orders_immutable (ops more : List Op) :
    (∀ o ∈ (runOps ops initState).orders,
        o.status = "pending_payment" ∧ o.dropLocation = "40.7128,-74.0060") ∧
    ∃ rest, (runOps (ops ++ more) initState).orders
      = (runOps ops initState).orders ++ rest := by
  constructor
  · obtain ⟨r, hr, hpr⟩ := runOps_orders_extend ops initState
    intro o ho
    rw [hr] at ho
    have hor : o ∈ r := by simpa [initState] using ho
    exact hpr o hor
  · have heq : runOps (ops ++ more) initState = runOps more (runOps ops initState) := by
      simp [runOps, List.foldl_append]
    rw [heq]
    obtain ⟨r, hr, _⟩ := runOps_orders_extend more (runOps ops initState)
    exact ⟨r, hr⟩

/-- Witness for C10: the order created by buying item 1 still has status
`"pending_payment"` and the placeholder location when read back from the
final state. -/
theorem orders_immutable_witness :
    ({ orderId := 1, userId := 2, itemId := 1, status := "pending_payment",
       dropLocation := "40.7128,-74.0060" } : Order).status = "pending_payment" ∧
    ({ orderId := 1, userId := 2, itemId := 1, status := "pending_payment",
       dropLocation := "40.7128,-74.0060" } : Order).dropLocation = "40.7128,-74.0060" :=
  (orders_immutable [Op.sell 1 ["Widget", "2"], Op.buy 2 ["1"]] [Op.profile 2]).1
    { orderId := 1, userId := 2, itemId := 1, status := "pending_payment",
      dropLocation := "40.7128,-74.0060" } (by decide)
